import Mathlib

/-!
Shallow embedding of the QRNG pipeline in qrng.py, together with proofs of
the specification's claims about it.  Pure parts of the program become Lean
functions; the external effects (the remote service, the plotting library)
become explicit parameters recording the outcome of each external call; the
in-place random shuffle becomes the relation "is a permutation of the
accumulated list".
-/

namespace QRNG

/-! ## Decoder: extract_random_numbers, qrng.py lines 140-170 -/

/-- Value contributed by one character of a binary outcome string under the
base-2 integer parse. -/
def bitVal (c : Char) : Nat := if c = '1' then 1 else 0

/-- Characters admitted in a binary outcome string. -/
def isBinChar (c : Char) : Bool := c == '0' || c == '1'

/-- A valid measurement-outcome key: a nonempty string of binary characters,
exactly the strings on which the base-2 parse of line 159 succeeds. -/
def isBinaryString (s : String) : Bool := (!s.data.isEmpty) && s.data.all isBinChar

/-- The base-2 parse of line 159, most-significant bit first: the value of
int(binary_string, 2) on a valid binary outcome string. -/
def int_base2 (s : String) : Nat :=
  s.data.foldl (fun acc c => 2 * acc + bitVal c) 0

/-- An outcome-count mapping: the items of the Python dict returned by the
remote service, in iteration order.  Keys are outcome strings, values are
occurrence counts. -/
abbrev Counts := List (String × Nat)

/-- The accumulation loop of lines 157-162: starting from the empty list,
for each (binary_string, count) item extend the list with the decoded
integer repeated count times. -/
def decode_counts (counts : Counts) : List Nat :=
  counts.foldl
    (fun random_numbers p => random_numbers ++ List.replicate p.2 (int_base2 p.1)) []

/-- The possible return values of extract_random_numbers: the accumulated
list of lines 157-162 after the in-place random.shuffle of line 166, hence
exactly the permutations of decode_counts. -/
def extract_random_numbers_spec (counts : Counts) (out : List Nat) : Prop :=
  out.Perm (decode_counts counts)

/-- Total shot count of a mapping: sum(counts.values()). -/
def total_shots (counts : Counts) : Nat := (counts.map Prod.snd).sum

/-- Stated from the spec for comparison with the decoder: the multiset that
holds, for each (outcome, count) item, the integer value of the outcome
string repeated count times. -/
def spec_multiset (counts : Counts) : Multiset Nat :=
  (counts.map (fun p => Multiset.replicate p.2 (int_base2 p.1))).sum

/-- Recursive restatement of the accumulation loop, used to reason about
decode_counts by induction. -/
def decode_chunks : Counts → List Nat
  | [] => []
  | p :: rest => List.replicate p.2 (int_base2 p.1) ++ decode_chunks rest

/-! ## Circuit builder: create_qrng_circuit, qrng.py lines 38-71 -/

/-- One instruction appended to the request description by the builder. -/
inductive Gate
  | h (qubit : Nat)
  | measure_all
deriving DecidableEq

/-- The request description: qubit count and instruction sequence. -/
structure QuantumCircuit where
  num_qubits : Nat
  gates : List Gate
deriving DecidableEq

/-- create_qrng_circuit of lines 38-71: QuantumCircuit(num_qubits) with the
Python default num_qubits=8 from line 38, one Hadamard per qubit from the
loop of lines 61-62, then measure_all from line 66. -/
def create_qrng_circuit (num_qubits : Nat := 8) : QuantumCircuit :=
  { num_qubits := num_qubits
    gates := (List.range num_qubits).map Gate.h ++ [Gate.measure_all] }

/-- The request description produced by calling the builder with no explicit
source-count argument, so that the Python default applies. -/
def default_circuit : QuantumCircuit := create_qrng_circuit

/-- Configuration constant NUM_QUBITS of main, line 244. -/
def NUM_QUBITS : Nat := 6

/-- Configuration constant NUM_SHOTS of main, line 245. -/
def NUM_SHOTS : Nat := 1024

/-! ## Executor: execute_on_quantum_hardware, qrng.py lines 77-134 -/

/-- A remote execution resource as observed by the executor. -/
structure Backend where
  name : String
  num_qubits : Nat
  operational : Bool
  simulator : Bool
  pending_jobs : Nat
deriving DecidableEq

/-- service.least_busy(operational=True, simulator=False) of line 94: among
the operational non-simulator backends, the first one with the fewest
pending jobs; none when no backend qualifies (the service raises there). -/
def least_busy (backends : List Backend) : Option Backend :=
  (backends.filter (fun b => b.operational && !b.simulator)).foldl
    (fun best b =>
      match best with
      | none => some b
      | some b0 => if b.pending_jobs < b0.pending_jobs then some b else some b0)
    none

/-- Failure modes of the executor.  The validation constructor exists so the
spec's required rejection of bad shot counts is expressible; the code never
constructs it. -/
inductive ExecError
  | noBackend
  | validation (msg : String)
deriving DecidableEq

/-- The job handed to sampler.run on line 119: the target backend and the
shot count set through sampler.options.default_shots on line 116. -/
structure SubmittedJob where
  backend_name : String
  shots : Int
deriving DecidableEq

/-- execute_on_quantum_hardware of lines 77-134, up to job submission:
select the least busy operational non-simulator backend, transpile for it
(lines 103-104, which never reads or alters the shot count), then submit the
job with the given num_shots.  No validation of num_shots occurs anywhere on
this path; the shot count flows unchanged from the argument into the
submitted job. -/
def execute_on_quantum_hardware (backends : List Backend) (num_shots : Int) :
    Except ExecError SubmittedJob :=
  match least_busy backends with
  | none => Except.error ExecError.noBackend
  | some backend => Except.ok { backend_name := backend.name, shots := num_shots }

/-- A concrete operational non-simulator backend used to exercise the
executor on concrete inputs. -/
def test_backend : Backend :=
  { name := "ibm_test", num_qubits := 127, operational := true,
    simulator := false, pending_jobs := 2 }

/-! ## Reporter: display_results, qrng.py lines 176-228 -/

/-- Python min over a list of integers: an error on an empty sequence,
otherwise the fold of two-argument min over the elements (line 193). -/
def list_min (l : List Nat) : Except String Nat :=
  match l with
  | [] => Except.error "min() arg is an empty sequence"
  | a :: rest => Except.ok (rest.foldl Nat.min a)

/-- Python max over a list of integers: an error on an empty sequence,
otherwise the fold of two-argument max over the elements (line 194). -/
def list_max (l : List Nat) : Except String Nat :=
  match l with
  | [] => Except.error "max() arg is an empty sequence"
  | a :: rest => Except.ok (rest.foldl Nat.max a)

/-- sum(random_numbers)/len(random_numbers) of line 195 as an exact
rational. -/
def mean_value (l : List Nat) : ℚ := (l.sum : ℚ) / (l.length : ℚ)

/-- len(set(random_numbers)) of line 186. -/
def unique_values (l : List Nat) : Nat := l.toFinset.card

/-- The statistics block of lines 190-195: the whole block is guarded by
if random_numbers, so an empty sample set skips min, max and the division by
the sample count entirely and yields no statistics; a nonempty one reports
min, max and the mean. -/
def stats_block (random_numbers : List Nat) :
    Except String (Option (Nat × Nat × ℚ)) :=
  if random_numbers.isEmpty then Except.ok none
  else
    match list_min random_numbers, list_max random_numbers with
    | Except.error e, _ => Except.error e
    | _, Except.error e => Except.error e
    | Except.ok mn, Except.ok mx =>
        Except.ok (some (mn, mx, mean_value random_numbers))

/-! ## Rendering and the top level: qrng.py lines 205-228 and 234-281 -/

/-- Outcomes of the external rendering calls made by display_results: each
call either raises (error with the message) or returns normally, and
plot_histogram may in addition return None instead of a figure. -/
structure RenderEnv where
  plot_histogram : Except String (Option Unit)
  fig_savefig : Except String Unit
  fallback_render : Except String Unit

/-- The rendering tail of display_results, lines 205-228: call
plot_histogram; if it returns a figure, save and show it (lines 211-214); if
it returns None, run the direct-matplotlib fallback (lines 215-228).  No
exception is caught anywhere in display_results, so a raising call makes the
whole function raise. -/
def display_results_render (env : RenderEnv) : Except String Unit :=
  match env.plot_histogram with
  | Except.error e => Except.error e
  | Except.ok (some _) => env.fig_savefig
  | Except.ok none => env.fallback_render

/-- The tail of main, lines 266-281, once the sample set exists: run
display_results and on success return the sample set; any exception reaches
the except block of lines 275-281, which prints troubleshooting tips and
re-raises, so the error propagates out of main and no sample set is
returned. -/
def main_run (random_numbers : List Nat) (env : RenderEnv) :
    Except String (List Nat) :=
  match display_results_render env with
  | Except.error e => Except.error e
  | Except.ok _ => Except.ok random_numbers

/-- Rendering environment in which the histogram-library call raises. -/
def env_plot_raises : RenderEnv :=
  { plot_histogram := Except.error "plot_histogram raised"
    fig_savefig := Except.ok ()
    fallback_render := Except.ok () }

/-- Rendering environment in which the histogram-library call returns None
and the direct-matplotlib fallback succeeds. -/
def env_fallback_ok : RenderEnv :=
  { plot_histogram := Except.ok none
    fig_savefig := Except.ok ()
    fallback_render := Except.ok () }

/-- The stubbed remote-service result of the end-to-end scenario in the
spec. -/
def counts_example : Counts := [("00", 10), ("01", 20), ("10", 30), ("11", 40)]

/-! ## Helper lemmas about the decoder -/

theorem decode_counts_eq_chunks (counts : Counts) :
    decode_counts counts = decode_chunks counts := by
  have key : ∀ (l : Counts) (acc : List Nat),
      l.foldl (fun a p => a ++ List.replicate p.2 (int_base2 p.1)) acc =
        acc ++ decode_chunks l := by
    intro l
    induction l with
    | nil => intro acc; simp [decode_chunks]
    | cons p rest ih =>
      intro acc
      simp only [List.foldl_cons, decode_chunks]
      rw [ih, List.append_assoc]
  simpa [decode_counts] using key counts []

theorem decode_chunks_length (counts : Counts) :
    (decode_chunks counts).length = total_shots counts := by
  induction counts with
  | nil => rfl
  | cons p rest ih =>
    simp only [decode_chunks, List.length_append, List.length_replicate, ih,
      total_shots, List.map_cons, List.sum_cons]

theorem decode_chunks_multiset (counts : Counts) :
    ((decode_chunks counts : List Nat) : Multiset Nat) = spec_multiset counts := by
  induction counts with
  | nil => rfl
  | cons p rest ih =>
    simp only [decode_chunks, spec_multiset, List.map_cons, List.sum_cons]
    rw [← Multiset.coe_add, Multiset.coe_replicate, ih]
    rfl

theorem exists_of_mem_decode_chunks {counts : Counts} {x : Nat}
    (hx : x ∈ decode_chunks counts) : ∃ p ∈ counts, x = int_base2 p.1 := by
  induction counts with
  | nil => simp [decode_chunks] at hx
  | cons p rest ih =>
    simp only [decode_chunks, List.mem_append] at hx
    rcases hx with hx | hx
    · exact ⟨p, List.mem_cons_self _ _, List.eq_of_mem_replicate hx⟩
    · obtain ⟨q, hq, hxq⟩ := ih hx
      exact ⟨q, List.mem_cons_of_mem _ hq, hxq⟩

theorem foldl_bits_lt (cs : List Char) :
    ∀ acc : Nat, cs.foldl (fun a c => 2 * a + bitVal c) acc < (acc + 1) * 2 ^ cs.length := by
  induction cs with
  | nil =>
    intro acc
    simp only [List.foldl_nil, List.length_nil, pow_zero]
    omega
  | cons c rest ih =>
    intro acc
    have hb : bitVal c ≤ 1 := by unfold bitVal; split <;> omega
    have h1 := ih (2 * acc + bitVal c)
    have h2 : (2 * acc + bitVal c + 1) * 2 ^ rest.length ≤
        (acc + 1) * 2 ^ (rest.length + 1) := by
      have hstep : 2 * acc + bitVal c + 1 ≤ (acc + 1) * 2 := by omega
      calc (2 * acc + bitVal c + 1) * 2 ^ rest.length
          ≤ ((acc + 1) * 2) * 2 ^ rest.length := Nat.mul_le_mul_right _ hstep
        _ = (acc + 1) * 2 ^ (rest.length + 1) := by rw [pow_succ]; ring
    simp only [List.foldl_cons, List.length_cons]
    exact Nat.lt_of_lt_of_le h1 h2

theorem int_base2_lt (s : String) : int_base2 s < 2 ^ s.length := by
  have h := foldl_bits_lt s.data 0
  have hl : s.length = s.data.length := rfl
  rw [int_base2, hl]
  simpa using h

/-! ## Helper lemmas about Python min and max over a list -/

theorem foldl_min_le_init (l : List Nat) : ∀ a : Nat, l.foldl Nat.min a ≤ a := by
  induction l with
  | nil => intro a; exact Nat.le_refl a
  | cons c rest ih =>
    intro a
    exact Nat.le_trans (ih (Nat.min a c)) (Nat.min_le_left a c)

theorem foldl_min_le_mem (l : List Nat) :
    ∀ a b : Nat, b ∈ l → l.foldl Nat.min a ≤ b := by
  induction l with
  | nil => intro a b hb; exact absurd hb (List.not_mem_nil b)
  | cons c rest ih =>
    intro a b hb
    rcases List.mem_cons.1 hb with rfl | hb2
    · exact Nat.le_trans (foldl_min_le_init rest (Nat.min a b)) (Nat.min_le_right a b)
    · exact ih (Nat.min a c) b hb2

theorem foldl_min_mem (l : List Nat) :
    ∀ a : Nat, l.foldl Nat.min a = a ∨ l.foldl Nat.min a ∈ l := by
  induction l with
  | nil => intro a; exact Or.inl rfl
  | cons c rest ih =>
    intro a
    rcases ih (Nat.min a c) with h | h
    · rcases Nat.le_total a c with hac | hca
      · left
        show rest.foldl Nat.min (Nat.min a c) = a
        have hm : Nat.min a c = a := by simp only [Nat.min_def]; split <;> omega
        rw [h, hm]
      · right
        show rest.foldl Nat.min (Nat.min a c) ∈ c :: rest
        have hm : Nat.min a c = c := by simp only [Nat.min_def]; split <;> omega
        rw [h, hm]
        exact List.mem_cons_self c rest
    · right
      exact List.mem_cons_of_mem _ h

theorem list_min_eq {l : List Nat} {m : Nat} (hmem : m ∈ l)
    (hle : ∀ b ∈ l, m ≤ b) : list_min l = Except.ok m := by
  cases l with
  | nil => exact absurd hmem (List.not_mem_nil m)
  | cons a rest =>
    show Except.ok (rest.foldl Nat.min a) = Except.ok m
    have h1 : rest.foldl Nat.min a ≤ m := by
      rcases List.mem_cons.1 hmem with rfl | hm2
      · exact foldl_min_le_init rest m
      · exact foldl_min_le_mem rest a m hm2
    have h2 : m ≤ rest.foldl Nat.min a := by
      rcases foldl_min_mem rest a with h | h
      · rw [h]; exact hle a (List.mem_cons_self a rest)
      · exact hle _ (List.mem_cons_of_mem a h)
    rw [Nat.le_antisymm h1 h2]

theorem foldl_max_ge_init (l : List Nat) : ∀ a : Nat, a ≤ l.foldl Nat.max a := by
  induction l with
  | nil => intro a; exact Nat.le_refl a
  | cons c rest ih =>
    intro a
    exact Nat.le_trans (Nat.le_max_left a c) (ih (Nat.max a c))

theorem foldl_max_ge_mem (l : List Nat) :
    ∀ a b : Nat, b ∈ l → b ≤ l.foldl Nat.max a := by
  induction l with
  | nil => intro a b hb; exact absurd hb (List.not_mem_nil b)
  | cons c rest ih =>
    intro a b hb
    rcases List.mem_cons.1 hb with rfl | hb2
    · exact Nat.le_trans (Nat.le_max_right a b) (foldl_max_ge_init rest (Nat.max a b))
    · exact ih (Nat.max a c) b hb2

theorem foldl_max_mem (l : List Nat) :
    ∀ a : Nat, l.foldl Nat.max a = a ∨ l.foldl Nat.max a ∈ l := by
  induction l with
  | nil => intro a; exact Or.inl rfl
  | cons c rest ih =>
    intro a
    rcases ih (Nat.max a c) with h | h
    · rcases Nat.le_total a c with hac | hca
      · right
        show rest.foldl Nat.max (Nat.max a c) ∈ c :: rest
        have hm : Nat.max a c = c := by simp only [Nat.max_def]; split <;> omega
        rw [h, hm]
        exact List.mem_cons_self c rest
      · left
        show rest.foldl Nat.max (Nat.max a c) = a
        have hm : Nat.max a c = a := by simp only [Nat.max_def]; split <;> omega
        rw [h, hm]
    · right
      exact List.mem_cons_of_mem _ h

theorem list_max_eq {l : List Nat} {m : Nat} (hmem : m ∈ l)
    (hge : ∀ b ∈ l, b ≤ m) : list_max l = Except.ok m := by
  cases l with
  | nil => exact absurd hmem (List.not_mem_nil m)
  | cons a rest =>
    show Except.ok (rest.foldl Nat.max a) = Except.ok m
    have h1 : m ≤ rest.foldl Nat.max a := by
      rcases List.mem_cons.1 hmem with rfl | hm2
      · exact foldl_max_ge_init rest m
      · exact foldl_max_ge_mem rest a m hm2
    have h2 : rest.foldl Nat.max a ≤ m := by
      rcases foldl_max_mem rest a with h | h
      · rw [h]; exact hge a (List.mem_cons_self a rest)
      · exact hge _ (List.mem_cons_of_mem a h)
    rw [Nat.le_antisymm h2 h1]

/-! ## Claims -/

/-- C1: for every outcome-count mapping, the decoder returns a sample list
whose length equals the sum of the mapping's count values. -/
theorem C1_decode_preserves_total_count (counts : Counts) (out : List Nat)
    (h : extract_random_numbers_spec counts out) :
    out.length = total_shots counts := by
  have hperm : out.Perm (decode_counts counts) := h
  rw [hperm.length_eq, decode_counts_eq_chunks, decode_chunks_length]

/-- C1 witness: the mapping with items ("1", 2) and ("0", 1) decodes to a
list of length 3. -/
theorem C1_decode_preserves_total_count_witness :
    extract_random_numbers_spec [("1", 2), ("0", 1)]
      (decode_counts [("1", 2), ("0", 1)]) ∧
    (decode_counts [("1", 2), ("0", 1)]).length = total_shots [("1", 2), ("0", 1)] :=
  ⟨List.Perm.refl _, C1_decode_preserves_total_count _ _ (List.Perm.refl _)⟩

/-- C2: the multiset of integers produced by the decoder equals the multiset
holding, for each (outcome, count) item, the value of the outcome string
repeated count times, and two runs of the decoder on the same mapping are
permutations of one another. -/
theorem C2_decode_multiset (counts : Counts) (out1 out2 : List Nat)
    (h1 : extract_random_numbers_spec counts out1)
    (h2 : extract_random_numbers_spec counts out2) :
    (out1 : Multiset Nat) = spec_multiset counts ∧ out1.Perm out2 := by
  have hp1 : out1.Perm (decode_counts counts) := h1
  have hp2 : out2.Perm (decode_counts counts) := h2
  constructor
  · rw [Multiset.coe_eq_coe.2 hp1, decode_counts_eq_chunks, decode_chunks_multiset]
  · exact hp1.trans hp2.symm

/-- C2 witness: on the mapping with items ("0", 1) and ("1", 2), the decoded
multiset matches and the run is a permutation of itself. -/
theorem C2_decode_multiset_witness :
    ((decode_counts [("0", 1), ("1", 2)] : List Nat) : Multiset Nat) =
      spec_multiset [("0", 1), ("1", 2)] ∧
    (decode_counts [("0", 1), ("1", 2)]).Perm (decode_counts [("0", 1), ("1", 2)]) :=
  C2_decode_multiset _ _ _ (List.Perm.refl _) (List.Perm.refl _)

/-- C3: when every key of the mapping is a binary string of length n, every
decoded integer lies in the interval from 0 to 2 ^ n - 1. -/
theorem C3_decode_range (counts : Counts) (n : Nat) (out : List Nat)
    (hkeys : ∀ p ∈ counts, isBinaryString p.1 = true ∧ p.1.length = n)
    (h : extract_random_numbers_spec counts out) :
    ∀ x ∈ out, x ≤ 2 ^ n - 1 := by
  intro x hx
  have hperm : out.Perm (decode_counts counts) := h
  have hx2 : x ∈ decode_chunks counts := by
    rw [← decode_counts_eq_chunks]
    exact hperm.subset hx
  obtain ⟨p, hp, rfl⟩ := exists_of_mem_decode_chunks hx2
  have hlt : int_base2 p.1 < 2 ^ n := by
    rw [← (hkeys p hp).2]
    exact int_base2_lt p.1
  have h1 : 1 ≤ 2 ^ n := Nat.one_le_two_pow
  omega

/-- C3 witness: the mapping with single item ("01", 1) and n = 2 decodes to
the list holding 1, which lies below 2 ^ 2 - 1. -/
theorem C3_decode_range_witness : (1 : Nat) ≤ 2 ^ 2 - 1 :=
  C3_decode_range [("01", 1)] 2 [1] (by decide)
    (by show List.Perm [1] (decode_counts [("01", 1)]); decide) 1 (by decide)

/-- C4 counterexample: the builder's source-count parameter defaults to 8,
not 6, so the request built with no explicit argument has 8 sources. -/
theorem C4_default_not_six :
    default_circuit.num_qubits = 8 ∧ default_circuit.num_qubits ≠ 6 :=
  ⟨rfl, by decide⟩

/-- C4 amended: the builder's source-count parameter defaults to 8; the main
program passes the explicit configuration constant NUM_QUBITS = 6, so the
pipeline as run uses 6 sources. -/
theorem C4_default_is_eight :
    default_circuit.num_qubits = 8 ∧ NUM_QUBITS = 6 ∧
      (create_qrng_circuit NUM_QUBITS).num_qubits = 6 :=
  ⟨rfl, rfl, rfl⟩

/-- C5 counterexample: when the histogram-library call raises, the exception
propagates through the top-level handler, the run fails and the sample set
is not returned, contrary to the claim that a rendering failure never fails
the pipeline. -/
theorem C5_render_failure_fatal :
    main_run [0, 1] env_plot_raises = Except.error "plot_histogram raised" ∧
    main_run [0, 1] env_plot_raises ≠ Except.ok [0, 1] :=
  ⟨rfl, fun hcontra => Except.noConfusion hcontra⟩

/-- C5 amended: the fallback rendering path runs only when the histogram
call returns None without raising, in which case the run still succeeds and
returns the sample set; an exception raised by a rendering call is not
caught, so it propagates out of main and the pipeline fails with it. -/
theorem C5_render_paths (samples : List Nat) (env : RenderEnv) :
    (∀ msg, env.plot_histogram = Except.error msg →
      main_run samples env = Except.error msg) ∧
    (env.plot_histogram = Except.ok none →
      env.fallback_render = Except.ok () →
      main_run samples env = Except.ok samples) := by
  constructor
  · intro msg hp
    simp [main_run, display_results_render, hp]
  · intro hp hf
    simp [main_run, display_results_render, hp, hf]

/-- C5 amended witness: with a raising histogram call the pipeline fails;
with a None-returning histogram call and a working fallback it succeeds. -/
theorem C5_render_paths_witness :
    main_run [2] env_plot_raises = Except.error "plot_histogram raised" ∧
    main_run [2] env_fallback_ok = Except.ok [2] :=
  ⟨(C5_render_paths [2] env_plot_raises).1 "plot_histogram raised" rfl,
   (C5_render_paths [2] env_fallback_ok).2 rfl rfl⟩

/-- C6: the executor performs no shot-count validation: with an operational
non-simulator backend available, shot counts 0 and -5 are passed through to
job submission unchanged instead of being rejected with a validation
error. -/
theorem C6_no_shot_count_validation :
    execute_on_quantum_hardware [test_backend] 0 =
      Except.ok { backend_name := "ibm_test", shots := 0 } ∧
    execute_on_quantum_hardware [test_backend] (-5) =
      Except.ok { backend_name := "ibm_test", shots := -5 } :=
  ⟨rfl, rfl⟩

/-- C7: on the empty outcome-count mapping the decoder returns the empty
sequence and raises no error. -/
theorem C7_empty_mapping (out : List Nat)
    (h : extract_random_numbers_spec [] out) : out = [] := by
  have hperm : out.Perm (decode_counts []) := h
  have hlen := hperm.length_eq
  simp only [decode_counts, List.foldl_nil, List.length_nil] at hlen
  exact List.eq_nil_of_length_eq_zero hlen

/-- C7 witness: the empty list is a decoder output for the empty mapping and
it is empty. -/
theorem C7_empty_mapping_witness :
    extract_random_numbers_spec [] [] ∧ ([] : List Nat) = [] :=
  ⟨List.Perm.refl _, C7_empty_mapping [] (List.Perm.refl _)⟩

set_option maxRecDepth 8000 in
/-- C8 counterexample: on the stubbed mapping the decoded sample set has
arithmetic mean exactly 2, not 23/10: the spec's own formula
(0*10 + 1*20 + 2*30 + 3*40)/100 evaluates to 200/100. -/
theorem C8_mean_not_23_tenths :
    extract_random_numbers_spec counts_example (decode_counts counts_example) ∧
    mean_value (decode_counts counts_example) = 2 ∧ (2 : ℚ) ≠ 23 / 10 := by
  refine ⟨List.Perm.refl _, ?_, by norm_num⟩
  have hs : (decode_counts counts_example).sum = 200 := by decide
  have hl : (decode_counts counts_example).length = 100 := by decide
  unfold mean_value
  rw [hs, hl]
  norm_num

set_option maxRecDepth 8000 in
/-- C8 amended: on the stubbed mapping with n = 2, every decoder output has
total count 100, 4 distinct values, minimum 0, maximum 3 and arithmetic mean
exactly 2. -/
theorem C8_reporter_stats (out : List Nat)
    (h : extract_random_numbers_spec counts_example out) :
    out.length = 100 ∧ unique_values out = 4 ∧
    stats_block out = Except.ok (some (0, 3, 2)) := by
  have hperm : out.Perm (decode_counts counts_example) := h
  have hlen : out.length = 100 := by rw [hperm.length_eq]; decide
  have hsum : out.sum = 200 := by rw [hperm.sum_eq]; decide
  have h0 : (0 : Nat) ∈ out := hperm.mem_iff.2 (by decide)
  have h3 : (3 : Nat) ∈ out := hperm.mem_iff.2 (by decide)
  have hub : ∀ b ∈ out, b ≤ 3 := by
    intro b hb
    have hall : ∀ x ∈ decode_counts counts_example, x ≤ 3 := by decide
    exact hall b (hperm.subset hb)
  have hminv : list_min out = Except.ok 0 := list_min_eq h0 (fun b _ => Nat.zero_le b)
  have hmaxv : list_max out = Except.ok 3 := list_max_eq h3 hub
  have huniq : unique_values out = 4 := by
    unfold unique_values
    rw [List.toFinset_eq_of_perm _ _ hperm]
    decide
  have hne : out.isEmpty = false := by
    cases out with
    | nil => simp at hlen
    | cons a rest => rfl
  have hmean : mean_value out = 2 := by
    unfold mean_value
    rw [hsum, hlen]
    norm_num
  refine ⟨hlen, huniq, ?_⟩
  simp [stats_block, hne, hminv, hmaxv, hmean]

/-- C8 amended witness: the unshuffled decoder output for the stubbed
mapping realizes the reported statistics. -/
theorem C8_reporter_stats_witness :
    (decode_counts counts_example).length = 100 ∧
    unique_values (decode_counts counts_example) = 4 ∧
    stats_block (decode_counts counts_example) = Except.ok (some (0, 3, 2)) :=
  C8_reporter_stats _ (List.Perm.refl _)

/-- C9: the circuit builder is deterministic: two calls with the same n give
equal request descriptions, with n qubits, one Hadamard per source and a
final joint measurement. -/
theorem C9_builder_deterministic (n : Nat) :
    create_qrng_circuit n = create_qrng_circuit n ∧
    (create_qrng_circuit n).num_qubits = n ∧
    (create_qrng_circuit n).gates =
      (List.range n).map Gate.h ++ [Gate.measure_all] ∧
    (create_qrng_circuit n).gates.length = n + 1 ∧
    (∀ q, q < n → Gate.h q ∈ (create_qrng_circuit n).gates) := by
  refine ⟨rfl, rfl, rfl, by simp [create_qrng_circuit], ?_⟩
  intro q hq
  simp only [create_qrng_circuit, List.mem_append, List.mem_map, List.mem_range]
  exact Or.inl ⟨q, hq, rfl⟩

/-- C9 witness: the builder at n = 3 yields 3 qubits and holds the Hadamard
on source 2. -/
theorem C9_builder_deterministic_witness :
    (create_qrng_circuit 3).num_qubits = 3 ∧
    Gate.h 2 ∈ (create_qrng_circuit 3).gates :=
  ⟨(C9_builder_deterministic 3).2.1,
   (C9_builder_deterministic 3).2.2.2.2 2 (by decide)⟩

/-- C10: on the empty sample set the reporter skips the min/max/mean block
entirely and yields no error, while the unguarded min and max calls would
error on the empty sequence. -/
theorem C10_empty_stats_skipped :
    stats_block [] = Except.ok none ∧
    list_min [] = Except.error "min() arg is an empty sequence" ∧
    list_max [] = Except.error "max() arg is an empty sequence" :=
  ⟨rfl, rfl, rfl⟩

end QRNG
